import Mathlib

/-!
Verification of the `deb-preseed` host-provisioning scripts.

Shallow embedding of the three Python source files:
  * `utils/analyze_web_traffic.py` — Traefik log analysis,
  * `hosts/misc/docker-compose/dns-setup/dns-setup.py` — Cloudflare CNAME management,
  * `hosts/misc/base.py` — `run_command`, SMB share discovery, fstab editing,
    unattended-upgrades configuration.

External effects (subprocess output, HTTP responses, user input) are passed in
explicitly as values or oracles; regular-expression searches used by the Python
code are embedded as deterministic character-list scanners that follow the
backtracking behaviour of `re.search` on the concrete patterns appearing in the
source (for each pattern the relevant greedy/backtracking analysis is noted at
its definition).
-/

namespace DebPreseed

/-! ## Generic string utilities

Python's `sub in s` substring test, modelled on the character lists underlying
`String`. -/

/-- Boolean substring test on character lists: `pat` occurs contiguously in the list. -/
def listInfixB (pat : List Char) : List Char → Bool
  | [] => pat.isEmpty
  | c :: cs => pat.isPrefixOf (c :: cs) || listInfixB pat cs

/-- Python's `sub in s` substring containment for strings. -/
def containsSub (s sub : String) : Bool := listInfixB sub.data s.data

/-- Splitting a character list at newline characters (the line structure used by
`re` with `.` not matching a newline, by `str.split('\n')`, and by the
`re.MULTILINE` anchors). Always returns at least one (possibly empty) line. -/
def splitNl : List Char → List (List Char)
  | [] => [[]]
  | c :: cs =>
    if c = '\n' then [] :: splitNl cs
    else
      match splitNl cs with
      | [] => [[c]]
      | l :: ls => (c :: l) :: ls

/-- Joining lines back with newline characters; inverse of `splitNl`. -/
def joinNl : List (List Char) → List Char
  | [] => []
  | [l] => l
  | l :: l' :: ls => l ++ '\n' :: joinNl (l' :: ls)

/-! ## `utils/analyze_web_traffic.py`

Deterministic scanners for the `re.search` calls in the script. Each scanner
tries its position matcher at every suffix position, advancing one character on
failure — exactly the engine's behaviour; per pattern the backtracking analysis
showing the position matcher is deterministic is recorded in a comment. -/

/-- `re.search` driver: try the position matcher `f` at every position of the
subject (including the end-of-string position). -/
def searchStr {α : Type} (f : List Char → Option α) : List Char → Option α
  | [] => f []
  | c :: cs =>
    match f (c :: cs) with
    | some r => some r
    | none => searchStr f cs

/-- Position matcher for patterns of the shape `pre([^stop]+)stop·suf` (e.g.
`msg="([^"]+)"`, `time="([^"]+)"`, `rejecting "([^"]+)"`, and with a suffix
`Host\(` + backquote + `([^`+backquote+`]+)` + backquote + `\)`). The capture
class excludes `stop`, so the greedy run is maximal and deterministic: the run
must be non-empty and be followed by `stop` and then `suf`. -/
def capAt (pre : List Char) (stop : Char) (suf : List Char) (l : List Char) :
    Option (List Char) :=
  if pre.isPrefixOf l then
    let rest := l.drop pre.length
    let cap := rest.takeWhile (fun x => x ≠ stop)
    if cap ≠ [] ∧ (stop :: suf).isPrefixOf (rest.drop cap.length) then some cap
    else none
  else none

/-- Position matcher for `pre([ok]+)` with no closing context: the greedy
non-empty run of `ok` characters after the literal prefix. -/
def runAt (pre : List Char) (ok : Char → Bool) (l : List Char) : Option (List Char) :=
  if pre.isPrefixOf l then
    let cap := (l.drop pre.length).takeWhile ok
    if cap ≠ [] then some cap else none
  else none

/-- Python's `\s` class: space, tab, newline, carriage return, vertical tab,
form feed. -/
def isPySpace (c : Char) : Bool :=
  c = ' ' || c = '\t' || c = '\n' || c = '\r' || c.toNat = 11 || c.toNat = 12

/-- Python's `str.strip()` (ASCII whitespace): drop leading and trailing
whitespace characters. -/
def pyStrip (s : String) : String :=
  String.mk (((s.data.dropWhile isPySpace).reverse.dropWhile isPySpace).reverse)

/-- Python's `str.lower()` on ASCII text. -/
def pyLower (s : String) : String := String.mk (s.data.map Char.toLower)

/-- Splitting at `.` characters, as `ipaddress` does for dotted quads. -/
def splitDots : List Char → List (List Char)
  | [] => [[]]
  | c :: cs =>
    if c = '.' then [] :: splitDots cs
    else
      match splitDots cs with
      | [] => [[c]]
      | l :: ls => (c :: l) :: ls

/-- The backquote character, delimiter of Traefik `Host(...)` rules. -/
def backquote : Char := "`".data.headD ' '

/-- Position matcher for `"(GET|POST|PUT|DELETE) ([^"]+)"`, returning group 2
(the path). No two verbs are prefixes of one another, so at most one
alternative can match at a position, and the `[^"]+` run is deterministic as in
`capAt`. -/
def methodPathAt (l : List Char) : Option (List Char) :=
  match l with
  | '"' :: cs =>
    match ["GET ", "POST ", "PUT ", "DELETE "].find? (fun v => v.data.isPrefixOf cs) with
    | none => none
    | some v =>
      let rest := cs.drop v.length
      let cap := rest.takeWhile (fun x => x ≠ '"')
      if cap ≠ [] ∧ cap.length < rest.length then some cap else none
  | _ => none

/-- Character class `[\d.:]` of the `tcp` connection pattern. -/
def isTcpCls (c : Char) : Bool := c.isDigit || c = '.' || c = ':'

/-- Result of `extract_ip_and_port_from_log`. -/
structure IpData where
  ip : String
  remote_port : String
  local_port : String
deriving Repr, DecidableEq

/-- `re.search(r':(\d+)$', local_endpoint)` (analyze_web_traffic.py:82): a
match exists iff the string ends in a non-empty digit run preceded by `:`, and
the group is that trailing run. -/
def localPortOf (g1 : List Char) : String :=
  let rd := g1.reverse.takeWhile Char.isDigit
  if rd ≠ [] ∧ (g1.reverse.drop rd.length).headD ' ' = ':' then String.mk rd.reverse
  else "Unknown"

/-- Position matcher for `tcp ([\d.:]+)->([^:]+):(\d+)`
(analyze_web_traffic.py:75). Each greedy piece is deterministic: `[\d.:]+`
cannot end early because `-` is outside the class; `[^:]+` cannot contain the
following `:`; `\d+` just needs one digit. -/
def tcpAt (l : List Char) : Option IpData :=
  if "tcp ".data.isPrefixOf l then
    let l1 := l.drop 4
    let g1 := l1.takeWhile isTcpCls
    let rest1 := l1.drop g1.length
    if g1 ≠ [] ∧ "->".data.isPrefixOf rest1 then
      let rest2 := rest1.drop 2
      let g2 := rest2.takeWhile (fun x => x ≠ ':')
      let rest3 := rest2.drop g2.length
      if g2 ≠ [] then
        match rest3 with
        | ':' :: rest4 =>
          if rest4.takeWhile Char.isDigit ≠ [] then
            some ⟨String.mk g2, String.mk (rest4.takeWhile Char.isDigit), localPortOf g1⟩
          else none
        | _ => none
      else none
    else none
  else none

/-- `\d{1,3}` followed by a literal `.`: the digit run is maximal (a shorter
take would put a digit where the `.` is expected), must have length 1–3, and
must be followed by `.`. Returns the remainder after the dot. -/
def octDot (l : List Char) : Option (List Char) :=
  let r := l.takeWhile Char.isDigit
  if 1 ≤ r.length ∧ r.length ≤ 3 then
    match l.drop r.length with
    | '.' :: rest => some rest
    | _ => none
  else none

/-- `\d{1,3}\.\d{1,3}\.\d{1,3}\.\d{1,3}` where the final octet is followed by
further literal context (`:` or ` -`), forcing its maximal run to have length
1–3 exactly. Returns the remainder after the quad. -/
def quadExact (l : List Char) : Option (List Char) := do
  let r1 ← octDot l
  let r2 ← octDot r1
  let r3 ← octDot r2
  let d := r3.takeWhile Char.isDigit
  if 1 ≤ d.length ∧ d.length ≤ 3 then pure (r3.drop d.length) else none

/-- Position matcher for `(\d{1,3}\.\d{1,3}\.\d{1,3}\.\d{1,3}):`
(analyze_web_traffic.py:93), returning group 1. -/
def quadColonAt (l : List Char) : Option (List Char) :=
  match quadExact l with
  | some rest => if rest.headD ' ' = ':' then some (l.take (l.length - rest.length)) else none
  | none => none

/-- Position matcher for `(\d{1,3}\.\d{1,3}\.\d{1,3}\.\d{1,3}) -`
(analyze_web_traffic.py:94). -/
def quadDashAt (l : List Char) : Option (List Char) :=
  match quadExact l with
  | some rest =>
    if " -".data.isPrefixOf rest then some (l.take (l.length - rest.length)) else none
  | none => none

/-- Position matcher for `client=(\d{1,3}\.\d{1,3}\.\d{1,3}\.\d{1,3})`
(analyze_web_traffic.py:95). The last octet has no following context, so the
greedy `\d{1,3}` simply takes up to three digits of the available run. -/
def clientAt (l : List Char) : Option (List Char) :=
  if "client=".data.isPrefixOf l then
    let l' := l.drop 7
    match (do
      let r1 ← octDot l'
      let r2 ← octDot r1
      octDot r2 : Option (List Char)) with
    | none => none
    | some r3 =>
      let d := r3.takeWhile Char.isDigit
      if d = [] then none
      else some (l'.take (l'.length - r3.length + min 3 d.length))
  else none

/-- `extract_ip_and_port_from_log` (analyze_web_traffic.py:72-117): the
`tcp ...` pattern first with full port data, then the four standalone-IP
patterns in order, with ports `"Unknown"`. -/
def extract_ip_and_port_from_log (line : String) : Option IpData :=
  match searchStr tcpAt line.data with
  | some d => some d
  | none =>
    match searchStr quadColonAt line.data with
    | some ip => some ⟨String.mk ip, "Unknown", "Unknown"⟩
    | none =>
      match searchStr quadDashAt line.data with
      | some ip => some ⟨String.mk ip, "Unknown", "Unknown"⟩
      | none =>
        match searchStr clientAt line.data with
        | some ip => some ⟨String.mk ip, "Unknown", "Unknown"⟩
        | none =>
          match searchStr (capAt "rejecting \"".data '"' []) line.data with
          | some ip => some ⟨String.mk ip, "Unknown", "Unknown"⟩
          | none => none

/-- CPython `ipaddress` IPv4 octet parsing: 1–3 decimal digits, no leading
zero, value ≤ 255. -/
def parseOctet (s : String) : Option Nat :=
  let cs := s.data
  if cs ≠ [] ∧ cs.length ≤ 3 ∧ cs.all Char.isDigit ∧ ¬(cs.length > 1 ∧ cs.headD '0' = '0') then
    let v := cs.foldl (fun n c => 10 * n + (c.toNat - 48)) 0
    if v ≤ 255 then some v else none
  else none

/-- Dotted-quad IPv4 parsing as done by `ipaddress.ip_address` on a string. -/
def ipv4Parse (s : String) : Option (Nat × Nat × Nat × Nat) :=
  match splitDots s.data with
  | [a, b, c, d] => do
    let a ← parseOctet (String.mk a)
    let b ← parseOctet (String.mk b)
    let c ← parseOctet (String.mk c)
    let d ← parseOctet (String.mk d)
    pure (a, b, c, d)
  | _ => none

/-- `is_private_ip` (analyze_web_traffic.py:65-70):
`ipaddress.ip_address(ip).is_private`, with `ValueError` mapped to `False`.
Modelled for IPv4 dotted quads via CPython's `_private_networks` list — the
only syntactic form the extraction patterns can produce, apart from the
free-text `rejecting "..."` capture, whose non-IPv4 values raise `ValueError`
in Python unless they are IPv6 literals (not modelled). -/
def is_private_ip (ip : String) : Bool :=
  match ipv4Parse ip with
  | none => false
  | some (a, b, c, d) =>
    decide (a = 0 ∨ a = 10 ∨ a = 127 ∨ (a = 169 ∧ b = 254) ∨ (a = 172 ∧ 16 ≤ b ∧ b ≤ 31) ∨
      (a = 192 ∧ b = 0 ∧ c = 0 ∧ d ≤ 7) ∨ (a = 192 ∧ b = 0 ∧ c = 0 ∧ (d = 170 ∨ d = 171)) ∨
      (a = 192 ∧ b = 0 ∧ c = 2) ∨ (a = 192 ∧ b = 168) ∨ (a = 198 ∧ (b = 18 ∨ b = 19)) ∨
      (a = 198 ∧ b = 51 ∧ c = 100) ∨ (a = 203 ∧ b = 0 ∧ c = 113) ∨ 240 ≤ a)

/-- The three regular-expression shapes appearing in `SUSPICIOUS_PATTERNS`
(analyze_web_traffic.py:13-28): plain literals (escapes resolved), `a.*b`, and
`[cls].*b`. -/
inductive Pat where
  | lit (s : String)
  | seqStar (a b : String)
  | clsStar (cls : List Char) (b : String)
deriving Repr, DecidableEq

/-- Remainder after the first (leftmost) occurrence of `pat`, or `none`. -/
def afterFirst (pat : List Char) : List Char → Option (List Char)
  | [] => if pat.isEmpty then some [] else none
  | c :: cs =>
    if pat.isPrefixOf (c :: cs) then some ((c :: cs).drop pat.length)
    else afterFirst pat cs

/-- Remainder after the first character satisfying `p`, or `none`. -/
def afterFirstCls (p : Char → Bool) : List Char → Option (List Char)
  | [] => none
  | c :: cs => if p c then some cs else afterFirstCls p cs

/-- `re.search(pattern, line, re.IGNORECASE)` for the three pattern shapes.
Case folding is modelled by lowercasing both sides. `.` does not match a
newline, so for `a.*b` a match exists iff, within a single line, some
occurrence of `a` is followed by an occurrence of `b` — which holds iff it
holds for the leftmost occurrence of `a` on that line (and likewise for the
first class character in `[cls].*b`). -/
def patMatch (p : Pat) (line : String) : Bool :=
  let low := pyLower line
  match p with
  | .lit s => containsSub low (pyLower s)
  | .seqStar a b =>
    (splitNl low.data).any (fun l =>
      match afterFirst (pyLower a).data l with
      | some rest => listInfixB (pyLower b).data rest
      | none => false)
  | .clsStar cls b =>
    (splitNl low.data).any (fun l =>
      match afterFirstCls (fun c => cls.contains c) l with
      | some rest => listInfixB (pyLower b).data rest
      | none => false)

/-- `SUSPICIOUS_PATTERNS` (analyze_web_traffic.py:13-28), in source order. -/
def SUSPICIOUS_PATTERNS : List Pat := [
  .lit "wp-login.php",
  .lit "wp-admin",
  .lit ".git",
  .lit ".env",
  .lit "/admin",
  .lit "/phpMyAdmin",
  .lit "/phpmyadmin",
  .lit "/solr",
  .lit "/jenkins",
  .seqStar "select" "from",
  .seqStar "union" "select",
  .lit "eval(",
  .lit "exec(",
  .clsStar ['"', Char.ofNat 39] "<script"]

/-- The `for pattern in SUSPICIOUS_PATTERNS` loop of `is_suspicious`
(analyze_web_traffic.py:185-190): first match returns `True`, otherwise
`False`. -/
def is_suspiciousAux (line : String) : List Pat → Bool
  | [] => false
  | p :: ps => if patMatch p line then true else is_suspiciousAux line ps

/-- `is_suspicious` (analyze_web_traffic.py:185-190). -/
def is_suspicious (line : String) : Bool := is_suspiciousAux line SUSPICIOUS_PATTERNS

/-- The `msg="([^"]+)"` capture used for `level=error` lines
(analyze_web_traffic.py:153). -/
def msg_capture (line : String) : Option String :=
  (searchStr (capAt "msg=\"".data '"' []) line.data).map String.mk

/-- The `time="([^"]+)"` capture (analyze_web_traffic.py:121). -/
def time_capture (line : String) : Option String :=
  (searchStr (capAt "time=\"".data '"' []) line.data).map String.mk

/-- The error-classification chain of `parse_traefik_log_line`
(analyze_web_traffic.py:136-155). -/
def error_type_of (line : String) : String :=
  if containsSub line "read: connection timed out" then "Connection Timeout"
  else if containsSub line "read: connection reset by peer" then "Connection Reset"
  else if containsSub line "write: broken pipe" then "Broken Pipe"
  else if containsSub line "Could not retrieve CanonizedHost, rejecting" then "Host Rejected"
  else if containsSub line "TLS handshake error" then "TLS Handshake Error"
  else if containsSub line "level=error" then
    match msg_capture line with
    | some m => m
    | none => "Unknown"
  else "Unknown"

/-- The path extraction of `parse_traefik_log_line`
(analyze_web_traffic.py:158-161). -/
def path_of (line : String) : String :=
  match searchStr methodPathAt line.data with
  | some p => String.mk p
  | none => "Unknown"

/-- The host extraction of `parse_traefik_log_line`
(analyze_web_traffic.py:164-169): the backquoted `Host(...)` rule pattern
first, then `Host: ([^\s,]+)`. -/
def host_of (line : String) : String :=
  match searchStr (capAt "Host(`".data backquote [')']) line.data with
  | some h => String.mk h
  | none =>
    match searchStr (runAt "Host: ".data (fun c => !(isPySpace c || c = ','))) line.data with
    | some h => String.mk h
    | none => "Unknown"

/-- The dictionary returned by `parse_traefik_log_line`. -/
structure LogEntry where
  ip : String
  timestamp : String
  error_type : String
  path : String
  host : String
  remote_port : String
  local_port : String
  suspicious : Bool
  raw_log : String
deriving Repr, DecidableEq

/-- `parse_traefik_log_line` (analyze_web_traffic.py:119-183). -/
def parse_traefik_log_line (line : String) : Option LogEntry :=
  let timestamp := match time_capture line with | some t => t | none => "Unknown"
  match extract_ip_and_port_from_log line with
  | none => none
  | some ipd =>
    if is_private_ip ipd.ip then none
    else
      some { ip := ipd.ip, timestamp := timestamp, error_type := error_type_of line,
             path := path_of line, host := host_of line,
             remote_port := ipd.remote_port, local_port := ipd.local_port,
             suspicious := is_suspicious line,
             raw_log := String.mk (line.data.take 150) }

/-! ## `hosts/misc/docker-compose/dns-setup/dns-setup.py` -/

/-- A DNS record in the API's decoded `result` list; `proxied` is optional
because the script reads it with `record.get("proxied", False)`. -/
structure CfRecord where
  id : String
  proxied : Option Bool
deriving Repr, DecidableEq

/-- A Cloudflare API response to the GET lookup: HTTP status code and the
decoded `result` list. -/
structure CfResponse where
  status : Nat
  result : List CfRecord
deriving Repr, DecidableEq

/-- Result dictionary of `check_dns_record_exists`: `{"exists": False}` or
`{"exists": True, "record_id": ..., "needs_update": ...}`. -/
inductive CheckResult where
  | absent
  | present (record_id : String) (needs_update : Bool)
deriving Repr, DecidableEq

/-- `check_dns_record_exists` (dns-setup.py:38-60): only a 200 response with a
non-empty `result` counts as existing; `needs_update` holds when the first
record's `proxied` field is literally `True`. -/
def check_dns_record_exists (resp : CfResponse) : CheckResult :=
  if resp.status = 200 then
    match resp.result with
    | record :: _ => .present record.id (record.proxied.getD false = true)
    | [] => .absent
  else .absent

/-- The JSON body sent by `create_dns_cname_record`/`update_dns_record`. -/
structure RecordData where
  type : String
  name : String
  content : String
  ttl : Nat
  proxied : Bool
deriving Repr, DecidableEq

/-- The fixed non-proxied CNAME payload (dns-setup.py:66-72 and 102-108). -/
def record_data (domain name : String) : RecordData :=
  { type := "CNAME", name := name, content := domain, ttl := 3600, proxied := false }

/-- A write request issued to the Cloudflare DNS records endpoint. -/
inductive ApiWrite where
  | post (data : RecordData)
  | put (record_id : String) (data : RecordData)
deriving Repr, DecidableEq

/-- `update_dns_record` (dns-setup.py:62-83): one PUT of the non-proxied
payload to `{API_ENDPOINT}/{record_id}`. -/
def update_dns_record (domain record_id name : String) : List ApiWrite :=
  [.put record_id (record_data domain name)]

/-- `create_dns_cname_record` (dns-setup.py:85-118), as the list of write
requests it issues given the response to its existence lookup. -/
def create_dns_cname_record (domain name : String) (resp : CfResponse) : List ApiWrite :=
  match check_dns_record_exists resp with
  | .present rid true => update_dns_record domain rid name
  | .present _ false => []
  | .absent => [.post (record_data domain name)]

/-- The per-subdomain decision of `main` (dns-setup.py:159-167). -/
inductive MainAction where
  | create
  | update (record_id : String)
  | skip
deriving Repr, DecidableEq

/-- What `main` does for one configured subdomain, from its lookup response
(dns-setup.py:159-167): no record → call `create_dns_cname_record`; record
needing update → call `update_dns_record`; otherwise skip. -/
def main_subdomain_action (resp : CfResponse) : MainAction :=
  match check_dns_record_exists resp with
  | .absent => .create
  | .present rid nu => if nu then .update rid else .skip

/-! ## `hosts/misc/base.py` — `run_command` -/

/-- Outcome of the `subprocess.Popen`/`communicate` call inside `run_command`:
either the process ran to completion or some exception was raised. -/
inductive ProcOutcome where
  | completed (returncode : Int) (stdout stderr : String)
  | raised (msg : String)
deriving Repr, DecidableEq

/-- `run_command` (base.py:227-274). The `check` flag only controls error
logging (base.py:264-267); the returned triple is the same, and the exception
handler (base.py:270-274) returns `(1, "", str(e))`. -/
def run_command (outcome : ProcOutcome) (check : Bool) : Int × String × String :=
  match outcome, check with
  | .completed rc out err, _ => (rc, pyStrip out, pyStrip err)
  | .raised m, _ => (1, "", m)

/-! ## `hosts/misc/base.py` — SMB share discovery (`discover_smb_shares`) -/

/-- The SMB protocol versions tried, in source order (base.py:910, 944). -/
def smbVersions : List String := ["", "3.0", "2.1", "2.0", "1.0"]

/-- Share filtering (base.py:918-919, 958-959):
`"\n".join(re.findall(r'.*Disk.*|.*Printer.*', out))` keeps exactly the lines
containing `Disk` or `Printer` (each alternative is a run of `.`s around the
word, so a match cannot cross a newline and greedily covers its whole line),
then `re.sub(r'.*print\$.*', '', ...)` blanks each kept line containing
`print$`, and `.strip()` trims outer whitespace. -/
def filterShares (out : String) : String :=
  let kept := (splitNl out.data).filter
    (fun l => listInfixB "Disk".data l || listInfixB "Printer".data l)
  let blanked := kept.map (fun l => if listInfixB "print$".data l then [] else l)
  pyStrip (String.mk (joinNl blanked))

/-- Anonymous-pass guard (base.py:916): the output reports
`Anonymous login successful` or does not contain `failed`. -/
def anonGuard (out : String) : Bool :=
  containsSub out "Anonymous login successful" || !containsSub out "failed"

/-- Authenticated-pass guard (base.py:957): none of the three failure markers
occurs in the output. -/
def authGuard (out : String) : Bool :=
  !(containsSub out "session setup failed" || containsSub out "NT_STATUS_LOGON_FAILURE" ||
    containsSub out "NT_STATUS_ACCESS_DENIED")

/-- The version loop shared by the anonymous pass (base.py:910-925) and each
authenticated attempt (base.py:944-968): for each version in order, run
`smbclient` (output supplied by the `outputs` oracle) and stop at the first
version whose output passes `guard` and whose filtered share list is
non-empty, returning that version and list; `auth_success` is set exactly when
this returns `some`. -/
def scanShares (guard : String → Bool) (outputs : String → String) :
    List String → Option (String × String)
  | [] => none
  | v :: vs =>
    let out := outputs v
    if guard out then
      let so := filterShares out
      if so ≠ "" then some (v, so) else scanShares guard outputs vs
    else scanShares guard outputs vs

/-- The anonymous share scan over the five versions (base.py:910-925). -/
def anon_share_scan (outputs : String → String) : Option (String × String) :=
  scanShares anonGuard outputs smbVersions

/-- One authenticated share scan over the five versions (base.py:944-968). -/
def auth_share_scan (outputs : String → String) : Option (String × String) :=
  scanShares authGuard outputs smbVersions

/-- The version loop as claim C1 words it: stop at the first version whose
filtered share list is non-empty, with no login-failure guard at all. -/
def scanSharesClaim (outputs : String → String) : List String → Option (String × String)
  | [] => none
  | v :: vs =>
    let so := filterShares (outputs v)
    if so ≠ "" then some (v, so) else scanSharesClaim outputs vs

/-- One credential attempt of the authenticated loop: the five `smbclient`
outputs (indexed by version option) and the user's answer to the retry
question. -/
structure CredAttempt where
  outputs : String → String
  retry_answer : String

/-- Outcome of the authenticated-credential loop (base.py:928-984). -/
inductive AuthOutcome where
  | success (version shares : String)
  | aborted
  | failed
deriving Repr, DecidableEq

/-- The `while auth_attempt <= max_auth_attempts and not auth_success` loop
(base.py:932-979), over the oracle of credential attempts. The second argument
counts the iterations still allowed (`max_auth_attempts - auth_attempt + 1`);
the returned number is how many credential prompts were issued. After a failed
attempt with attempts remaining, an answer other than `y` to the retry
question aborts the discovery (base.py:971-978); after the final attempt the
loop ends and failure is reported (base.py:981-984). -/
def auth_loop (oracle : Nat → CredAttempt) : Nat → Nat → AuthOutcome × Nat
  | _, 0 => (.failed, 0)
  | attempt, k + 1 =>
    let a := oracle attempt
    match auth_share_scan a.outputs with
    | some (v, s) => (.success v s, 1)
    | none =>
      if k = 0 then (.failed, 1)
      else if pyLower a.retry_answer ≠ "y" then (.aborted, 1)
      else
        let r := auth_loop oracle (attempt + 1) k
        (r.1, r.2 + 1)

/-- The authenticated-credential loop with `max_auth_attempts = 3`
(base.py:929-930). -/
def auth_phase (oracle : Nat → CredAttempt) : AuthOutcome × Nat :=
  auth_loop oracle 1 3

/-- The cifs version list of one mount attempt (base.py:1135). -/
def mountVersions : List String := ["3.0", "2.0", "1.0"]

/-- The `for vers in ["3.0", "2.0", "1.0"]` loop of one mount attempt
(base.py:1135-1152): stop at the first version whose `mount -t cifs` call
returns 0. -/
def try_mount_versions (rcs : String → Int) : List String → Option String
  | [] => none
  | v :: vs => if rcs v = 0 then some v else try_mount_versions rcs vs

/-- One iteration's external inputs for the mount retry loop: the mount return
codes per cifs version and the user's answer to the retry question. -/
structure MountAttempt where
  rcs : String → Int
  retry_answer : String

/-- The `while retry_count < max_retries and not share_mount_success` loop
(base.py:1131-1173), over the oracle of attempts. The second argument is
`max_retries - retry_count`; the result is whether a mount succeeded and how
many attempts ran. Declining new credentials on a failed attempt jumps
`retry_count` to the maximum, ending the loop (base.py:1170-1173). -/
def mount_loop (oracle : Nat → MountAttempt) : Nat → Nat → Bool × Nat
  | _, 0 => (false, 0)
  | count, k + 1 =>
    let a := oracle count
    match try_mount_versions a.rcs mountVersions with
    | some _ => (true, 1)
    | none =>
      if k = 0 then (false, 1)
      else if pyLower a.retry_answer = "y" then
        let r := mount_loop oracle (count + 1) k
        (r.1, r.2 + 1)
      else (false, 1)

/-- The mount retry loop with `max_retries = 3` (base.py:1120). -/
def mount_phase (oracle : Nat → MountAttempt) : Bool × Nat :=
  mount_loop oracle 0 3

/-! ## `hosts/misc/base.py` — fstab editing inside `discover_smb_shares` -/

/-- The multiline substitution
`re.sub(f"^.*{key}.*$", entry, content, flags=re.MULTILINE)`
(base.py:1108-1113): each line containing the key is replaced wholly by the
entry (the pattern spans a full line; `.` cannot cross the newline). The only
regex metacharacters inside the interpolated key are the dots of the host
address, which in particular match the literal dots of any line containing the
key text itself. -/
def fstab_sub (key entry content : String) : String :=
  String.mk (joinNl ((splitNl content.data).map
    (fun l => if listInfixB key.data l then entry.data else l)))

/-- The fstab edit for one selected share (base.py:1093-1117), as a function
of the current file content; `key` is `//host/share /mnt/share` and `entry`
the full desired `cifs` line. Append when the key is absent, substitute when
the key is present but the exact entry is not, otherwise leave the file
unchanged. -/
def fstab_update (content entry key : String) : String :=
  if ¬ containsSub content key then content ++ entry ++ "\n"
  else if ¬ containsSub content entry then fstab_sub key entry content
  else content

/-! ## `hosts/misc/base.py` — `setup_security_updates` -/

/-- Content written unconditionally to `/etc/apt/apt.conf.d/20auto-upgrades`
(base.py:1204-1209). -/
def AUTO_UPGRADES_CONTENT : String :=
  "APT::Periodic::Update-Package-Lists \"1\";\n" ++
  "APT::Periodic::Unattended-Upgrade \"1\";\n" ++
  "APT::Periodic::AutocleanInterval \"7\";\n" ++
  "APT::Periodic::Download-Upgradeable-Packages \"1\";\n"

/-- The Debian-Security allowed-origin directive (base.py:1217-1223). -/
def ORIGIN_LINE : String :=
  "\"origin=Debian,codename=${distro_codename},label=Debian-Security\";"

/-- The substring tested to decide whether an Automatic-Reboot directive is
present (base.py:1228). -/
def REBOOT_KEY : String := "Unattended-Upgrade::Automatic-Reboot"

/-- The literal pattern rewritten to `false` (base.py:1233). -/
def REBOOT_TRUE : String := "Unattended-Upgrade::Automatic-Reboot \"true\";"

/-- The directive guaranteeing no automatic reboots (base.py:1230, 1234). -/
def REBOOT_FALSE : String := "Unattended-Upgrade::Automatic-Reboot \"false\";"

/-- The full configuration written when `50unattended-upgrades` does not exist
(base.py:1244-1259). -/
def FULL_UNATTENDED_CONTENT : String :=
  "Unattended-Upgrade::Allowed-Origins \x7b\n" ++
  "    \"origin=Debian,codename=${distro_codename},label=Debian-Security\";\n" ++
  "\x7d;\n\nUnattended-Upgrade::Package-Blacklist \x7b\n\x7d;\n\n" ++
  "Unattended-Upgrade::AutoFixInterruptedDpkg \"true\";\n" ++
  "Unattended-Upgrade::MinimalSteps \"true\";\n" ++
  "Unattended-Upgrade::InstallOnShutdown \"false\";\n" ++
  "Unattended-Upgrade::Remove-Unused-Kernel-Packages \"true\";\n" ++
  "Unattended-Upgrade::Remove-New-Unused-Dependencies \"true\";\n" ++
  "Unattended-Upgrade::Remove-Unused-Dependencies \"true\";\n" ++
  "Unattended-Upgrade::Automatic-Reboot \"false\";\n"

/-- The `re.search(r'^\s*"origin...";', content, re.MULTILINE)` test
(base.py:1217): some line starts, after its (maximal) leading whitespace, with
the origin directive (the pattern has no trailing anchor, so trailing text is
allowed; `\s*` may also absorb newlines, but any such match still places the
directive at the whitespace-only start of its own line, so the per-line test
is equivalent). -/
def originEnabled (content : String) : Bool :=
  (splitNl content.data).any
    (fun l => ORIGIN_LINE.data.isPrefixOf (l.dropWhile (fun c => isPySpace c)))

/-- The substitution `re.sub(r'//\s*"origin...";', '"origin...";', content)`
(base.py:1219-1223), with a flag recording whether any replacement happened.
At a position starting `//`, the greedy `\s*` takes the maximal whitespace run
(backtracking cannot help, since the origin directive starts with a
non-whitespace character); when the directive follows, the whole match is
replaced by the bare directive and scanning resumes after it, as `re.sub`
does; otherwise the engine advances one character. -/
def uncommentGo : Nat → List Char → Bool × List Char
  | 0, l => (false, l)
  | _ + 1, [] => (false, [])
  | fuel + 1, c :: cs =>
    let rest' := (cs.drop 1).dropWhile (fun x => isPySpace x)
    if c = '/' ∧ cs.headD ' ' = '/' ∧ ORIGIN_LINE.data.isPrefixOf rest' = true then
      let r := uncommentGo fuel (rest'.drop ORIGIN_LINE.data.length)
      (true, ORIGIN_LINE.data ++ r.2)
    else
      let r := uncommentGo fuel cs
      (r.1, c :: r.2)

/-- The substitution scan started with enough fuel for the whole subject:
every recursive step strictly shortens the list, so `l.length` steps always
complete the scan. -/
def uncommentScan (l : List Char) : Bool × List Char := uncommentGo l.length l

/-- The origin-enabling step of `setup_security_updates` (base.py:1216-1225). -/
def origin_step (content : String) : String :=
  if originEnabled content then content
  else String.mk (uncommentScan content.data).2

/-- Whether the content contains a `//`-commented origin directive that the
substitution would rewrite. -/
def hasCommentedOrigin (content : String) : Bool := (uncommentScan content.data).1

/-- `re.sub` for a literal pattern without metacharacters: replace each
occurrence, left to right, resuming after the replacement; the flag records
whether any occurrence was found. The fuel argument bounds the scanning steps;
each step strictly shortens the subject, so `l.length` fuel always suffices. -/
def replaceGo (pat rep : List Char) : Nat → List Char → Bool × List Char
  | 0, l => (false, l)
  | _ + 1, [] => (false, [])
  | fuel + 1, c :: cs =>
    if pat ≠ [] ∧ pat.isPrefixOf (c :: cs) = true then
      let r := replaceGo pat rep fuel ((c :: cs).drop pat.length)
      (true, rep ++ r.2)
    else
      let r := replaceGo pat rep fuel cs
      (r.1, c :: r.2)

/-- The literal-pattern substitution over the whole subject. -/
def replaceScan (pat rep l : List Char) : Bool × List Char :=
  replaceGo pat rep l.length l

/-- The Automatic-Reboot step of `setup_security_updates` (base.py:1227-1236):
append the `false` directive when the `Unattended-Upgrade::Automatic-Reboot`
substring is absent, otherwise rewrite literal occurrences of the `"true"`
directive to `"false"`. -/
def reboot_step (content : String) : String :=
  if ¬ containsSub content REBOOT_KEY then content ++ "\n" ++ REBOOT_FALSE ++ "\n"
  else String.mk (replaceScan REBOOT_TRUE.data REBOOT_FALSE.data content.data).2

/-- `setup_security_updates`' rewrite of `50unattended-upgrades`
(base.py:1211-1259), as a function of the existing content (`none` models a
missing file). -/
def setup_50unattended (existing : Option String) : String :=
  match existing with
  | none => FULL_UNATTENDED_CONTENT
  | some c => reboot_step (origin_step c)

/-- `setup_security_updates`' write of `20auto-upgrades` (base.py:1204-1209):
the fixed content, whatever was there before. -/
def setup_20auto (_existing : Option String) : String := AUTO_UPGRADES_CONTENT

/-! ## `utils/analyze_web_traffic.py` — `analyze_logs` / `process_log_entry` -/

/-- Per-IP details stored in `ip_details` (analyze_web_traffic.py:222-235). -/
structure IpDetail where
  country : String
  ports_accessed : List String
  endpoints : List String
deriving Repr, DecidableEq

/-- The mutable state of `WebTrafficAnalyzer` (analyze_web_traffic.py:31-41)
touched by `analyze_logs`. Counters are total functions, `ip_details` is an
association list, and `suspicious_ips` is recorded as the list of IPs of the
appended events (one element per appended event, which suffices for key
membership). -/
structure AnalyzerState where
  ips : String → Nat
  countries : String → Nat
  error_types : String → Nat
  ip_details : List (String × IpDetail)
  suspicious_ips : List String
  requests : List LogEntry
  unknown_hosts : Nat
  connection_errors : Nat
  processed : Nat

/-- The freshly-constructed analyzer (analyze_web_traffic.py:32-41). -/
def initState : AnalyzerState :=
  ⟨fun _ => 0, fun _ => 0, fun _ => 0, [], [], [], 0, 0, 0⟩

/-- Python `set.add` on a list-modelled set. -/
def setAdd (x : String) (s : List String) : List String :=
  if x ∈ s then s else x :: s

/-- `process_log_entry` (analyze_web_traffic.py:217-257), with the
`geoiplookup` country lookup supplied by the `geo` oracle. -/
def process_log_entry (geo : String → String) (st : AnalyzerState) (d : LogEntry) :
    AnalyzerState :=
  let endpoint := if d.path ≠ "Unknown" then d.host ++ d.path else "Unknown"
  let known := (st.ip_details.find? (fun p => p.1 == d.ip)).isSome
  let details1 := if known then st.ip_details else (d.ip, ⟨geo d.ip, [], []⟩) :: st.ip_details
  let details2 := details1.map (fun p =>
    if p.1 == d.ip then
      (p.1, ⟨p.2.country, setAdd d.local_port p.2.ports_accessed, setAdd endpoint p.2.endpoints⟩)
    else p)
  { ips := fun k => if k = d.ip then st.ips k + 1 else st.ips k
    countries := if known then st.countries
      else fun k => if k = geo d.ip then st.countries k + 1 else st.countries k
    error_types := if d.error_type ≠ "Unknown" then
        fun k => if k = d.error_type then st.error_types k + 1 else st.error_types k
      else st.error_types
    ip_details := details2
    suspicious_ips := if d.suspicious then d.ip :: st.suspicious_ips else st.suspicious_ips
    requests := st.requests ++ [d]
    unknown_hosts := if d.error_type = "Host Rejected" then st.unknown_hosts + 1
      else st.unknown_hosts
    connection_errors := if d.error_type ≠ "Host Rejected" ∧
        (containsSub d.error_type "Connection" = true ∨ containsSub d.error_type "Error" = true)
      then st.connection_errors + 1 else st.connection_errors
    processed := st.processed }

/-- One iteration of the `for line in docker_logs` loop of `analyze_logs`
(analyze_web_traffic.py:204-212): startup messages are skipped, lines that do
not parse are dropped, parsed lines are processed and counted. -/
def analyze_step (geo : String → String) (st : AnalyzerState) (line : String) :
    AnalyzerState :=
  if containsSub line "level=info msg=\"Starting provider" = true ∨
      containsSub line "Configuration loaded" = true then st
  else
    match parse_traefik_log_line line with
    | none => st
    | some d => { process_log_entry geo st d with processed := st.processed + 1 }

/-- `analyze_logs` (analyze_web_traffic.py:192-215) over a given list of log
lines; the final `processed` field is what is stored in `total_connections`. -/
def analyze_logs (geo : String → String) (lines : List String) : AnalyzerState :=
  lines.foldl (analyze_step geo) initState

/-! ## Definitions used only in the statements of the theorems -/

/-- The error-type classification as claim C2 words it: the five fixed
substring classes in precedence order, then the `msg="..."` capture for
`level=error` lines, then `Unknown`. -/
def error_type_claim (line : String) : String :=
  if containsSub line "read: connection timed out" then "Connection Timeout"
  else if containsSub line "read: connection reset by peer" then "Connection Reset"
  else if containsSub line "write: broken pipe" then "Broken Pipe"
  else if containsSub line "Could not retrieve CanonizedHost, rejecting" then "Host Rejected"
  else if containsSub line "TLS handshake error" then "TLS Handshake Error"
  else if containsSub line "level=error" then
    match msg_capture line with
    | some m => m
    | none => "Unknown"
  else "Unknown"

/-- The part of the analyzer state a given IP could appear in. -/
def ipAbsent (ip : String) (st : AnalyzerState) : Prop :=
  st.ips ip = 0 ∧ (∀ p ∈ st.ip_details, p.1 ≠ ip) ∧ ip ∉ st.suspicious_ips ∧
    ∀ e ∈ st.requests, e.ip ≠ ip

/-- `smbclient` outputs refuting C1 as stated: the default-version output
contains `failed` (so the code skips it without ever filtering it) although
its Disk/Printer-filtered share list is non-empty. -/
def c1_outputs : String → String := fun v =>
  if v = "" then "x failed\nfoo Disk" else "session setup failed"

/-- A stock-like `50unattended-upgrades` with a `//`-commented origin and no
Automatic-Reboot directive. -/
def stock50 : String :=
  "Unattended-Upgrade::Allowed-Origins \x7b\n" ++
  "//      \"origin=Debian,codename=${distro_codename},label=Debian-Security\";\n" ++
  "\x7d;\n"

/-- A stock-like `50unattended-upgrades` with a `//`-commented origin and the
stock `//`-commented Automatic-Reboot line (whose text contains both the
Automatic-Reboot substring and the exact `"false"` directive). -/
def stock50_full : String :=
  "Unattended-Upgrade::Allowed-Origins \x7b\n" ++
  "//      \"origin=Debian,codename=${distro_codename},label=Debian-Security\";\n" ++
  "\x7d;\n\n//Unattended-Upgrade::Automatic-Reboot \"false\";\n"

/-- Pre-existing content refuting the claim's unconditional Automatic-Reboot
guarantee: the `Unattended-Upgrade::Automatic-Reboot` substring is present
(inside `-Time`), so nothing is appended, and no exact `"true"` directive
occurs, so the rewrite changes nothing. -/
def c7_reboot_input : String := "Unattended-Upgrade::Automatic-Reboot-Time \"02:00\";\n"

/-! ## General lemmas about the string utilities -/

theorem listInfixB_iff (pat l : List Char) : listInfixB pat l = true ↔ pat <:+: l := by
  induction l with
  | nil =>
    simp [listInfixB, List.isEmpty_iff, List.infix_nil]
  | cons c cs ih =>
    simp only [listInfixB, Bool.or_eq_true, List.isPrefixOf_iff_prefix, ih,
      List.infix_cons_iff]

theorem containsSub_iff (s sub : String) :
    containsSub s sub = true ↔ sub.data <:+: s.data := by
  simp [containsSub, listInfixB_iff]

theorem splitNl_ne_nil (l : List Char) : splitNl l ≠ [] := by
  cases l with
  | nil => simp [splitNl]
  | cons c cs =>
    simp only [splitNl]
    split
    · simp
    · split <;> simp

theorem joinNl_splitNl (l : List Char) : joinNl (splitNl l) = l := by
  induction l with
  | nil => simp [splitNl, joinNl]
  | cons c cs ih =>
    simp only [splitNl]
    split
    · rename_i hc
      subst hc
      rcases h : splitNl cs with _ | ⟨a, as⟩
      · exact absurd h (splitNl_ne_nil cs)
      · rw [h] at ih
        simp [joinNl, ih]
    · rcases h : splitNl cs with _ | ⟨a, as⟩
      · exact absurd h (splitNl_ne_nil cs)
      · rw [h] at ih
        cases as with
        | nil => simp_all [joinNl]
        | cons b bs => simp_all [joinNl]

theorem infix_joinNl_of_mem {l : List Char} {ls : List (List Char)}
    (h : l ∈ ls) : l <:+: joinNl ls := by
  induction ls with
  | nil => cases h
  | cons a as ih =>
    cases h with
    | head =>
      cases as with
      | nil => simp [joinNl]
      | cons b bs =>
        simp only [joinNl]
        exact (List.prefix_append l ('\n' :: joinNl (b :: bs))).isInfix
    | tail _ hmem =>
      cases as with
      | nil => cases hmem
      | cons b bs =>
        simp only [joinNl]
        exact ((ih hmem).trans (List.suffix_cons '\n' (joinNl (b :: bs))).isInfix).trans
          (List.suffix_append a ('\n' :: joinNl (b :: bs))).isInfix

/-! ## Theorems for claim C4 -/

theorem is_suspiciousAux_eq_any (line : String) (ps : List Pat) :
    is_suspiciousAux line ps = ps.any (fun p => patMatch p line) := by
  induction ps with
  | nil => rfl
  | cons p ps ih =>
    simp only [is_suspiciousAux, List.any_cons]
    by_cases h : patMatch p line = true <;> simp [h, ih]

/-- C4: `is_suspicious` returns `True` for a log line if and only if at least
one of the regular expressions in `SUSPICIOUS_PATTERNS` matches the line
case-insensitively, and `False` otherwise. -/
theorem suspicious_iff_some_pattern_matches (line : String) :
    is_suspicious line = true ↔ ∃ p ∈ SUSPICIOUS_PATTERNS, patMatch p line = true := by
  rw [is_suspicious, is_suspiciousAux_eq_any, List.any_eq_true]

/-! ## Theorems for claim C2 -/

/-- C2: every line that `parse_traefik_log_line` accepts (it carries an
extractable, non-private IP) is classified into exactly one error type
following the claim's precedence chain. -/
theorem parse_error_type_follows_precedence (line : String) (e : LogEntry)
    (h : parse_traefik_log_line line = some e) :
    e.error_type = error_type_claim line := by
  unfold parse_traefik_log_line at h
  cases hx : extract_ip_and_port_from_log line with
  | none => rw [hx] at h; cases h
  | some ipd =>
    rw [hx] at h
    dsimp only at h
    by_cases hp : is_private_ip ipd.ip = true
    · rw [if_pos hp] at h; cases h
    · rw [if_neg hp] at h
      cases h
      rfl

/-- Concrete instance of C2: a public-IP timeout line is classified
`Connection Timeout`. -/
theorem parse_error_type_follows_precedence_witness :
    (LogEntry.mk "8.8.8.8" "Unknown" "Connection Timeout" "Unknown" "Unknown"
        "Unknown" "Unknown" false "client=8.8.8.8 read: connection timed out").error_type =
      error_type_claim "client=8.8.8.8 read: connection timed out" :=
  parse_error_type_follows_precedence "client=8.8.8.8 read: connection timed out" _ (by rfl)

/-! ## Theorems for claim C8 -/

theorem parse_ip_not_private (line : String) (e : LogEntry)
    (h : parse_traefik_log_line line = some e) : is_private_ip e.ip = false := by
  unfold parse_traefik_log_line at h
  cases hx : extract_ip_and_port_from_log line with
  | none => rw [hx] at h; cases h
  | some ipd =>
    rw [hx] at h
    dsimp only at h
    by_cases hp : is_private_ip ipd.ip = true
    · rw [if_pos hp] at h; cases h
    · rw [if_neg hp] at h
      cases h
      cases hb : is_private_ip ipd.ip with
      | false => rfl
      | true => exact absurd hb hp

theorem parse_private_none (line : String) (ipd : IpData)
    (hx : extract_ip_and_port_from_log line = some ipd)
    (hp : is_private_ip ipd.ip = true) :
    parse_traefik_log_line line = none := by
  unfold parse_traefik_log_line
  rw [hx]
  dsimp only
  rw [if_pos hp]

theorem process_log_entry_preserves_absent (geo : String → String) (ip : String)
    (st : AnalyzerState) (d : LogEntry) (hne : d.ip ≠ ip)
    (h : ipAbsent ip st) : ipAbsent ip (process_log_entry geo st d) := by
  obtain ⟨h1, h2, h3, h4⟩ := h
  refine ⟨?_, ?_, ?_, ?_⟩
  · show (if ip = d.ip then st.ips ip + 1 else st.ips ip) = 0
    rw [if_neg (fun hh => hne hh.symm)]
    exact h1
  · intro p hp
    have hdet : (process_log_entry geo st d).ip_details =
        ((if (st.ip_details.find? (fun p => p.1 == d.ip)).isSome then st.ip_details
          else (d.ip, IpDetail.mk (geo d.ip) [] []) :: st.ip_details).map (fun p =>
            if p.1 == d.ip then
              (p.1, IpDetail.mk p.2.country (setAdd d.local_port p.2.ports_accessed)
                (setAdd (if d.path ≠ "Unknown" then d.host ++ d.path else "Unknown")
                  p.2.endpoints))
            else p)) := rfl
    rw [hdet] at hp
    obtain ⟨q, hq, rfl⟩ := List.mem_map.mp hp
    have hq1 : q.1 ≠ ip := by
      by_cases hknown : (st.ip_details.find? (fun p => p.1 == d.ip)).isSome = true
      · rw [if_pos hknown] at hq
        exact h2 q hq
      · rw [if_neg hknown] at hq
        cases hq with
        | head => exact hne
        | tail _ hmem => exact h2 q hmem
    split
    · exact hq1
    · exact hq1
  · show ip ∉ (if d.suspicious then d.ip :: st.suspicious_ips else st.suspicious_ips)
    split
    · intro hmem
      cases hmem with
      | head => exact hne rfl
      | tail _ hmem => exact h3 hmem
    · exact h3
  · intro e he
    have hreq : (process_log_entry geo st d).requests = st.requests ++ [d] := rfl
    rw [hreq, List.mem_append, List.mem_singleton] at he
    cases he with
    | inl hmem => exact h4 e hmem
    | inr heq => rw [heq]; exact hne

theorem analyze_step_preserves_absent (geo : String → String) (ip : String)
    (hp : is_private_ip ip = true) (st : AnalyzerState) (line : String)
    (h : ipAbsent ip st) : ipAbsent ip (analyze_step geo st line) := by
  unfold analyze_step
  split
  · exact h
  · cases hl : parse_traefik_log_line line with
    | none => exact h
    | some d =>
      have hd : is_private_ip d.ip = false := parse_ip_not_private _ _ hl
      have hne : d.ip ≠ ip := by
        intro heq
        rw [heq, hp] at hd
        cases hd
      have := process_log_entry_preserves_absent geo ip st d hne h
      exact ⟨this.1, this.2.1, this.2.2.1, this.2.2.2⟩

theorem analyze_foldl_preserves_absent (geo : String → String) (ip : String)
    (hp : is_private_ip ip = true) :
    ∀ (lines : List String) (st : AnalyzerState), ipAbsent ip st →
      ipAbsent ip (lines.foldl (analyze_step geo) st) := by
  intro lines
  induction lines with
  | nil => intro st h; exact h
  | cons l ls ih =>
    intro st h
    exact ih _ (analyze_step_preserves_absent geo ip hp st l h)

/-- C8: a log line whose extracted IP is private is rejected by
`parse_traefik_log_line` and leaves the analyzer state untouched, and after a
whole `analyze_logs` run a private IP has count 0 and appears in none of
`ip_details`, `suspicious_ips` or `requests` (hence contributes to no country
or error-type counter and not to `total_connections`). -/
theorem private_ips_never_reported :
    (∀ line ipd, extract_ip_and_port_from_log line = some ipd →
      is_private_ip ipd.ip = true →
      parse_traefik_log_line line = none ∧ ∀ geo st, analyze_step geo st line = st) ∧
    (∀ geo lines ip, is_private_ip ip = true →
      (analyze_logs geo lines).ips ip = 0 ∧
      (∀ p ∈ (analyze_logs geo lines).ip_details, p.1 ≠ ip) ∧
      ip ∉ (analyze_logs geo lines).suspicious_ips ∧
      ∀ e ∈ (analyze_logs geo lines).requests, e.ip ≠ ip) := by
  constructor
  · intro line ipd hx hp
    have hparse := parse_private_none line ipd hx hp
    refine ⟨hparse, ?_⟩
    intro geo st
    unfold analyze_step
    split
    · rfl
    · rw [hparse]
  · intro geo lines ip hp
    have hinit : ipAbsent ip initState := by
      refine ⟨rfl, ?_, ?_, ?_⟩ <;> simp [initState]
    exact analyze_foldl_preserves_absent geo ip hp lines initState hinit

/-- Concrete instance of C8: a Docker-network source IP never reaches the
report state. -/
theorem private_ips_never_reported_witness :
    parse_traefik_log_line "client=192.168.1.7 read: connection timed out" = none ∧
    (analyze_logs (fun _ => "SomeCountry")
      ["client=192.168.1.7 read: connection timed out",
       "client=8.8.8.8 read: connection timed out"]).ips "192.168.1.7" = 0 :=
  ⟨(private_ips_never_reported.1 "client=192.168.1.7 read: connection timed out"
      (IpData.mk "192.168.1.7" "Unknown" "Unknown") (by rfl) (by rfl)).1,
   (private_ips_never_reported.2 (fun _ => "SomeCountry")
      ["client=192.168.1.7 read: connection timed out",
       "client=8.8.8.8 read: connection timed out"] "192.168.1.7" (by rfl)).1⟩

/-! ## Theorems for claim C1 -/

theorem scanShares_eq_find (guard : String → Bool) (outputs : String → String)
    (vs : List String) :
    scanShares guard outputs vs =
      (vs.find? (fun v => guard (outputs v) && decide (filterShares (outputs v) ≠ ""))).map
        (fun v => (v, filterShares (outputs v))) := by
  induction vs with
  | nil => rfl
  | cons v vs ih =>
    simp only [scanShares, List.find?_cons]
    by_cases hg : guard (outputs v) = true
    · by_cases hf : filterShares (outputs v) = ""
      · simp [hg, hf, ih]
      · simp [hg, hf]
    · simp [hg, ih]

/-- C1 (amended): the share-listing step tries SMB versions in the fixed order
default, 3.0, 2.1, 2.0, 1.0 — in the anonymous pass and in each authenticated
attempt — and stops at the first version whose output passes the
login-failure guard (anonymous: `Anonymous login successful` present or
`failed` absent; authenticated: none of the three `NT_STATUS`/`session setup
failed` markers) AND whose Disk/Printer-filtered, `print$`-free share list is
non-empty; `auth_success` is set exactly when such a version exists. -/
theorem share_scan_characterization :
    smbVersions = ["", "3.0", "2.1", "2.0", "1.0"] ∧
    (∀ outputs, anon_share_scan outputs =
      (smbVersions.find? (fun v =>
        anonGuard (outputs v) && decide (filterShares (outputs v) ≠ ""))).map
        (fun v => (v, filterShares (outputs v)))) ∧
    (∀ outputs, auth_share_scan outputs =
      (smbVersions.find? (fun v =>
        authGuard (outputs v) && decide (filterShares (outputs v) ≠ ""))).map
        (fun v => (v, filterShares (outputs v)))) :=
  ⟨rfl, fun o => scanShares_eq_find anonGuard o smbVersions,
    fun o => scanShares_eq_find authGuard o smbVersions⟩

/-- C1 counterexample: a non-empty filtered share list is obtained at the
default version (the claim's condition for stopping and for setting
`auth_success`), yet the code's anonymous scan returns nothing, because the
`failed` guard rejects the output before its share list is examined. -/
theorem share_scan_claim_counterexample :
    (smbVersions.any fun v => decide (filterShares (c1_outputs v) ≠ "")) = true ∧
    scanSharesClaim c1_outputs smbVersions = some ("", "foo Disk") ∧
    anon_share_scan c1_outputs = none :=
  ⟨rfl, rfl, rfl⟩

/-! ## Theorems for claim C5 -/

theorem auth_loop_prompts_le (oracle : Nat → CredAttempt) :
    ∀ k a, (auth_loop oracle a k).2 ≤ k := by
  intro k
  induction k with
  | zero => intro a; exact Nat.le_refl 0
  | succ k ih =>
    intro a
    rcases hscan : auth_share_scan (oracle a).outputs with _ | ⟨v, s⟩
    · by_cases hk : k = 0
      · simp [auth_loop, hscan, hk]
      · by_cases hr : pyLower (oracle a).retry_answer ≠ "y"
        · simp [auth_loop, hscan, if_neg hk, hr]
        · simp only [auth_loop, hscan, if_neg hk, if_neg hr]
          simpa using Nat.succ_le_succ (ih (a + 1))
    · simp [auth_loop, hscan]

theorem auth_loop_failed_prompts (oracle : Nat → CredAttempt) :
    ∀ k a, (auth_loop oracle a k).1 = AuthOutcome.failed → (auth_loop oracle a k).2 = k := by
  intro k
  induction k with
  | zero => intro a _; rfl
  | succ k ih =>
    intro a h
    rcases hscan : auth_share_scan (oracle a).outputs with _ | ⟨v, s⟩
    · by_cases hk : k = 0
      · simp [auth_loop, hscan, hk]
      · by_cases hr : pyLower (oracle a).retry_answer ≠ "y"
        · simp only [auth_loop, hscan, if_neg hk, if_pos hr] at h
          cases h
        · simp only [auth_loop, hscan, if_neg hk, if_neg hr] at h ⊢
          rw [ih (a + 1) h]
    · simp [auth_loop, hscan] at h

theorem mount_loop_attempts_le (oracle : Nat → MountAttempt) :
    ∀ k c, (mount_loop oracle c k).2 ≤ k := by
  intro k
  induction k with
  | zero => intro c; exact Nat.le_refl 0
  | succ k ih =>
    intro c
    rcases hscan : try_mount_versions (oracle c).rcs mountVersions with _ | v
    · by_cases hk : k = 0
      · simp [mount_loop, hscan, hk]
      · by_cases hr : pyLower (oracle c).retry_answer = "y"
        · simp only [mount_loop, hscan, if_neg hk, if_pos hr]
          simpa using Nat.succ_le_succ (ih (c + 1))
        · simp [mount_loop, hscan, if_neg hk, hr]
    · simp [mount_loop, hscan]

theorem try_mount_eq_find (rcs : String → Int) (vs : List String) :
    try_mount_versions rcs vs = vs.find? (fun v => rcs v == 0) := by
  induction vs with
  | nil => rfl
  | cons v vs ih =>
    simp only [try_mount_versions, List.find?_cons]
    by_cases h : rcs v = 0
    · have hb : (rcs v == 0) = true := beq_iff_eq.mpr h
      simp [h, hb]
    · have hb : (rcs v == 0) = false := beq_eq_false_iff_ne.mpr h
      simp [h, hb, ih]

/-- C5: the authenticated-credential loop asks for credentials at most
`max_auth_attempts = 3` times, and reports failure exactly when all three
attempts ran and failed; each mount attempt tries cifs versions 3.0, 2.0, 1.0
in order, stopping at the first return code 0, and the mount retry loop runs
at most `max_retries = 3` attempts. -/
theorem retry_loops_bounded :
    (∀ oracle, (auth_phase oracle).2 ≤ 3) ∧
    (∀ oracle, (auth_phase oracle).1 = AuthOutcome.failed → (auth_phase oracle).2 = 3) ∧
    (∀ oracle, (mount_phase oracle).2 ≤ 3) ∧
    (∀ rcs, try_mount_versions rcs mountVersions =
      mountVersions.find? (fun v => rcs v == 0)) ∧
    mountVersions = ["3.0", "2.0", "1.0"] :=
  ⟨fun o => auth_loop_prompts_le o 3 1,
   fun o h => auth_loop_failed_prompts o 3 1 h,
   fun o => mount_loop_attempts_le o 3 0,
   fun rcs => try_mount_eq_find rcs mountVersions,
   rfl⟩

/-- Concrete instance of C5: with credentials that always fail and a user who
always retries, exactly three credential prompts happen before failure is
reported, and an all-failing mount oracle stays within three attempts. -/
theorem retry_loops_bounded_witness :
    (auth_phase (fun _ => CredAttempt.mk (fun _ => "session setup failed") "y")).2 ≤ 3 ∧
    (auth_phase (fun _ => CredAttempt.mk (fun _ => "session setup failed") "y")).2 = 3 ∧
    (mount_phase (fun _ => MountAttempt.mk (fun _ => 1) "y")).2 ≤ 3 :=
  ⟨retry_loops_bounded.1 _,
   retry_loops_bounded.2.1 _ (by rfl),
   retry_loops_bounded.2.2.1 _⟩

/-! ## Theorems for claim C3 -/

/-- C3: `create_dns_cname_record` POSTs the fixed non-proxied CNAME payload
when no record exists, PUTs the same payload to the record's id when the
record exists proxied, and issues no write at all when the record exists
non-proxied. -/
theorem cname_record_management (domain name : String) (resp : CfResponse) :
    (check_dns_record_exists resp = CheckResult.absent →
      create_dns_cname_record domain name resp = [ApiWrite.post (record_data domain name)]) ∧
    (∀ rid, check_dns_record_exists resp = CheckResult.present rid true →
      create_dns_cname_record domain name resp = [ApiWrite.put rid (record_data domain name)]) ∧
    (∀ rid, check_dns_record_exists resp = CheckResult.present rid false →
      create_dns_cname_record domain name resp = []) ∧
    record_data domain name = RecordData.mk "CNAME" name domain 3600 false := by
  refine ⟨?_, ?_, ?_, rfl⟩
  · intro h
    simp [create_dns_cname_record, h]
  · intro rid h
    simp [create_dns_cname_record, h, update_dns_record]
  · intro rid h
    simp [create_dns_cname_record, h]

/-- Concrete instance of C3: the three response shapes produce exactly the
claimed write requests. -/
theorem cname_record_management_witness :
    create_dns_cname_record "example.com" "dash" (CfResponse.mk 200 []) =
      [ApiWrite.post (record_data "example.com" "dash")] ∧
    create_dns_cname_record "example.com" "dash"
        (CfResponse.mk 200 [CfRecord.mk "rid1" (some true)]) =
      [ApiWrite.put "rid1" (record_data "example.com" "dash")] ∧
    create_dns_cname_record "example.com" "dash"
        (CfResponse.mk 200 [CfRecord.mk "rid1" (some false)]) = [] :=
  ⟨(cname_record_management "example.com" "dash" (CfResponse.mk 200 [])).1 (by rfl),
   (cname_record_management "example.com" "dash"
      (CfResponse.mk 200 [CfRecord.mk "rid1" (some true)])).2.1 "rid1" (by rfl),
   (cname_record_management "example.com" "dash"
      (CfResponse.mk 200 [CfRecord.mk "rid1" (some false)])).2.2.1 "rid1" (by rfl)⟩

/-! ## Theorems for claim C9 -/

/-- C9: `check_dns_record_exists` answers "absent" both for any non-200
response and for a 200 response with an empty result list, and `main` then
goes on to attempt creation — a transient lookup error is indistinguishable
from a missing record. -/
theorem lookup_failure_conflated_with_absence (resp : CfResponse)
    (h : resp.status ≠ 200 ∨ resp.result = []) :
    check_dns_record_exists resp = CheckResult.absent ∧
    main_subdomain_action resp = MainAction.create := by
  have habs : check_dns_record_exists resp = CheckResult.absent := by
    unfold check_dns_record_exists
    rcases h with h | h
    · rw [if_neg h]
    · rw [h]
      split <;> rfl
  exact ⟨habs, by simp [main_subdomain_action, habs]⟩

/-- Concrete instance of C9: a 503 lookup response carrying an (unseen)
record still ends in a creation attempt. -/
theorem lookup_failure_conflated_with_absence_witness :
    check_dns_record_exists (CfResponse.mk 503 [CfRecord.mk "rid1" (some false)]) =
      CheckResult.absent ∧
    main_subdomain_action (CfResponse.mk 503 [CfRecord.mk "rid1" (some false)]) =
      MainAction.create :=
  lookup_failure_conflated_with_absence _ (Or.inl (by decide))

/-! ## Theorems for claim C10 -/

/-- C10: `run_command` is total: it always returns a triple; `stdout` and
`stderr` come back whitespace-stripped; an exception yields `(1, "", msg)`;
and `check=True` changes nothing about the returned value — a failing command
is only logged. -/
theorem run_command_total_characterization :
    (∀ outcome, run_command outcome true = run_command outcome false) ∧
    (∀ rc out err check, run_command (ProcOutcome.completed rc out err) check =
      (rc, pyStrip out, pyStrip err)) ∧
    (∀ m check, run_command (ProcOutcome.raised m) check = (1, "", m)) := by
  refine ⟨?_, ?_, ?_⟩
  · intro outcome
    cases outcome <;> rfl
  · intro rc out err check
    rfl
  · intro m check
    rfl

/-! ## Theorems for claim C6 -/

theorem string_data_append (a b : String) : (a ++ b).data = a.data ++ b.data := rfl

theorem fstab_sub_contains_entry {key entry content : String}
    (h : ∃ l ∈ splitNl content.data, listInfixB key.data l = true) :
    containsSub (fstab_sub key entry content) entry = true := by
  obtain ⟨l, hl, hkey⟩ := h
  rw [containsSub_iff]
  show entry.data <:+:
    joinNl ((splitNl content.data).map (fun l => if listInfixB key.data l then entry.data else l))
  exact infix_joinNl_of_mem (List.mem_map.mpr ⟨l, hl, by rw [if_pos hkey]⟩)

theorem fstab_sub_id {key entry content : String}
    (h : ∀ l ∈ splitNl content.data, ¬ listInfixB key.data l = true) :
    fstab_sub key entry content = content := by
  unfold fstab_sub
  rw [List.map_congr_left (fun l hl => if_neg (h l hl)), List.map_id', joinNl_splitNl]

/-- C6: the fstab edit appends the entry only when no part of the file
contains the `//host/share /mnt/share` key, substitutes the key's lines in
place when the key is present but the exact entry is not, leaves the file
untouched when the entry is present — and it is idempotent: a second run for
the same share changes nothing, so no duplicate fstab entries ever arise. The
hypothesis holds for the code's inputs: the key is a prefix of the entry. -/
theorem fstab_update_idempotent (content entry key : String)
    (hk : containsSub entry key = true) :
    (¬ containsSub content key = true →
      fstab_update content entry key = content ++ entry ++ "\n") ∧
    (containsSub content key = true → containsSub content entry = true →
      fstab_update content entry key = content) ∧
    fstab_update (fstab_update content entry key) entry key =
      fstab_update content entry key := by
  refine ⟨?_, ?_, ?_⟩
  · intro h
    unfold fstab_update
    rw [if_pos h]
  · intro h1 h2
    unfold fstab_update
    rw [if_neg (not_not_intro h1), if_neg (not_not_intro h2)]
  · by_cases h1 : containsSub content key = true
    · by_cases h2 : containsSub content entry = true
      · have hR : fstab_update content entry key = content := by
          unfold fstab_update
          rw [if_neg (not_not_intro h1), if_neg (not_not_intro h2)]
        rw [hR]
        exact hR
      · have hR : fstab_update content entry key = fstab_sub key entry content := by
          unfold fstab_update
          rw [if_neg (not_not_intro h1), if_pos h2]
        by_cases hA : ∃ l ∈ splitNl content.data, listInfixB key.data l = true
        · have hEntry : containsSub (fstab_sub key entry content) entry = true :=
            fstab_sub_contains_entry hA
          have hKey : containsSub (fstab_sub key entry content) key = true := by
            rw [containsSub_iff] at hk hEntry ⊢
            exact hk.trans hEntry
          rw [hR]
          unfold fstab_update
          rw [if_neg (not_not_intro hKey), if_neg (not_not_intro hEntry)]
        · push_neg at hA
          have hid : fstab_sub key entry content = content := fstab_sub_id (by
            intro l hl
            simpa using hA l hl)
          rw [hR, hid]
          exact hR.trans hid
    · have hR : fstab_update content entry key = content ++ entry ++ "\n" := by
        unfold fstab_update
        rw [if_pos h1]
      have hEntryInf : entry.data <:+: (content ++ entry ++ "\n").data := by
        rw [string_data_append, string_data_append]
        exact List.infix_append content.data entry.data "\n".data
      have hKey : containsSub (content ++ entry ++ "\n") key = true := by
        rw [containsSub_iff] at hk ⊢
        exact hk.trans hEntryInf
      have hEntry : containsSub (content ++ entry ++ "\n") entry = true := by
        rw [containsSub_iff]
        exact hEntryInf
      rw [hR]
      unfold fstab_update
      rw [if_neg (not_not_intro hKey), if_neg (not_not_intro hEntry)]

/-- Concrete instance of C6: the first run appends the entry, the second run
changes nothing, and a file already carrying the exact entry is untouched. -/
theorem fstab_update_idempotent_witness :
    fstab_update "# fstab" "//h/s /mnt/s cifs credentials=/etc/.smb_h 0 0" "//h/s /mnt/s" =
      "# fstab" ++ "//h/s /mnt/s cifs credentials=/etc/.smb_h 0 0" ++ "\n" ∧
    fstab_update
        (fstab_update "# fstab" "//h/s /mnt/s cifs credentials=/etc/.smb_h 0 0"
          "//h/s /mnt/s")
        "//h/s /mnt/s cifs credentials=/etc/.smb_h 0 0" "//h/s /mnt/s" =
      fstab_update "# fstab" "//h/s /mnt/s cifs credentials=/etc/.smb_h 0 0"
        "//h/s /mnt/s" ∧
    fstab_update "//h/s /mnt/s cifs credentials=/etc/.smb_h 0 0\n"
        "//h/s /mnt/s cifs credentials=/etc/.smb_h 0 0" "//h/s /mnt/s" =
      "//h/s /mnt/s cifs credentials=/etc/.smb_h 0 0\n" :=
  ⟨(fstab_update_idempotent "# fstab" "//h/s /mnt/s cifs credentials=/etc/.smb_h 0 0"
      "//h/s /mnt/s" (by rfl)).1 (by decide),
   (fstab_update_idempotent "# fstab" "//h/s /mnt/s cifs credentials=/etc/.smb_h 0 0"
      "//h/s /mnt/s" (by rfl)).2.2,
   (fstab_update_idempotent "//h/s /mnt/s cifs credentials=/etc/.smb_h 0 0\n"
      "//h/s /mnt/s cifs credentials=/etc/.smb_h 0 0" "//h/s /mnt/s" (by rfl)).2.1
      (by rfl) (by rfl)⟩

/-! ## Theorems for claim C7 -/

theorem uncommentGo_found_infix :
    ∀ (fuel : Nat) (l : List Char), (uncommentGo fuel l).1 = true →
      ORIGIN_LINE.data <:+: (uncommentGo fuel l).2 := by
  intro fuel
  induction fuel with
  | zero => intro l h; cases h
  | succ fuel ih =>
    intro l h
    cases l with
    | nil => cases h
    | cons c cs =>
      by_cases hp : c = '/' ∧ cs.headD ' ' = '/' ∧
          ORIGIN_LINE.data.isPrefixOf ((cs.drop 1).dropWhile (fun x => isPySpace x)) = true
      · simp only [uncommentGo, if_pos hp]
        exact (List.prefix_append ORIGIN_LINE.data _).isInfix
      · simp only [uncommentGo, if_neg hp] at h ⊢
        exact (ih _ h).trans (List.suffix_cons c _).isInfix

theorem replaceGo_found_infix (pat rep : List Char) :
    ∀ fuel l, (replaceGo pat rep fuel l).1 = true →
      rep <:+: (replaceGo pat rep fuel l).2 := by
  intro fuel
  induction fuel with
  | zero => intro l h; cases h
  | succ fuel ih =>
    intro l h
    cases l with
    | nil => cases h
    | cons c cs =>
      by_cases hp : pat ≠ [] ∧ pat.isPrefixOf (c :: cs) = true
      · simp only [replaceGo, if_pos hp]
        exact (List.prefix_append rep _).isInfix
      · simp only [replaceGo, if_neg hp] at h ⊢
        exact (ih cs h).trans (List.suffix_cons c _).isInfix

theorem replaceGo_found_of_infix (pat rep : List Char) (hne : pat ≠ []) :
    ∀ fuel l, l.length ≤ fuel → pat <:+: l → (replaceGo pat rep fuel l).1 = true := by
  intro fuel
  induction fuel with
  | zero =>
    intro l hlen hinf
    have hnil : l = [] := List.eq_nil_of_length_eq_zero (Nat.le_zero.mp hlen)
    subst hnil
    exact absurd (List.infix_nil.mp hinf) hne
  | succ fuel ih =>
    intro l hlen hinf
    cases l with
    | nil => exact absurd (List.infix_nil.mp hinf) hne
    | cons c cs =>
      by_cases hp : pat ≠ [] ∧ pat.isPrefixOf (c :: cs) = true
      · simp only [replaceGo, if_pos hp]
      · simp only [replaceGo, if_neg hp]
        have hnp : ¬ pat.isPrefixOf (c :: cs) = true := fun hpp => hp ⟨hne, hpp⟩
        have hcs : pat <:+: cs := by
          rcases List.infix_cons_iff.mp hinf with hpre | hinf'
          · exact absurd (List.isPrefixOf_iff_prefix.mpr hpre) hnp
          · exact hinf'
        have hlen' : cs.length ≤ fuel := by
          simpa using Nat.le_of_succ_le_succ hlen
        exact ih cs hlen' hcs

theorem replaceGo_fuel_congr (pat rep : List Char) :
    ∀ f g l, l.length ≤ f → l.length ≤ g →
      replaceGo pat rep f l = replaceGo pat rep g l := by
  intro f
  induction f with
  | zero =>
    intro g l hf _
    have hnil : l = [] := List.eq_nil_of_length_eq_zero (Nat.le_zero.mp hf)
    subst hnil
    cases g <;> rfl
  | succ f ih =>
    intro g l hf hg
    cases l with
    | nil => cases g <;> rfl
    | cons c cs =>
      cases g with
      | zero => simp at hg
      | succ g =>
        by_cases hp : pat ≠ [] ∧ pat.isPrefixOf (c :: cs) = true
        · simp only [replaceGo, if_pos hp]
          have hlp : 1 ≤ pat.length := by
            cases hpat : pat with
            | nil => exact absurd hpat hp.1
            | cons x xs => simp
          have hlen : ((c :: cs).drop pat.length).length ≤ f := by
            simp only [List.length_drop, List.length_cons]
            simp only [List.length_cons] at hf
            omega
          have hlen' : ((c :: cs).drop pat.length).length ≤ g := by
            simp only [List.length_drop, List.length_cons]
            simp only [List.length_cons] at hg
            omega
          rw [ih g ((c :: cs).drop pat.length) hlen hlen']
        · simp only [replaceGo, if_neg hp]
          have hlen : cs.length ≤ f := by
            simp only [List.length_cons] at hf
            omega
          have hlen' : cs.length ≤ g := by
            simp only [List.length_cons] at hg
            omega
          rw [ih g cs hlen hlen']

theorem replaceGo_no_occurrence (pat rep : List Char) :
    ∀ f l, ¬ pat <:+: l → replaceGo pat rep f l = (false, l) := by
  intro f
  induction f with
  | zero => intro l _; rfl
  | succ f ih =>
    intro l h
    cases l with
    | nil => rfl
    | cons c cs =>
      have hp : ¬ (pat ≠ [] ∧ pat.isPrefixOf (c :: cs) = true) := by
        rintro ⟨-, hpp⟩
        exact h (List.isPrefixOf_iff_prefix.mp hpp).isInfix
      simp only [replaceGo, if_neg hp]
      rw [ih cs (fun hcs => h (hcs.trans (List.suffix_cons c cs).isInfix))]

/-- The scanner emits verbatim every region that no pattern occurrence
touches: a prefix of the subject that is a suffix of a `keep` string the
pattern cannot overlap (no suffix of `keep` is prefix-related to `pat`)
survives as a prefix of the output. -/
theorem replaceGo_prefix_preserved (pat rep keep : List Char)
    (h1 : ∀ p, p < keep.length →
      ¬ pat <+: keep.drop p ∧ ¬ keep.drop p <+: pat) :
    ∀ f l kt, kt <:+ keep → kt <+: l →
      kt <+: (replaceGo pat rep f l).2 := by
  intro f
  induction f with
  | zero => intro l kt _ hpre; exact hpre
  | succ f ih =>
    intro l kt hsuf hpre
    cases l with
    | nil =>
      have hnil : kt = [] := List.prefix_nil.mp hpre
      subst hnil
      exact List.nil_prefix
    | cons c cs =>
      cases kt with
      | nil => exact List.nil_prefix
      | cons k0 kt' =>
        obtain ⟨kp, hkp⟩ := hsuf
        have hplt : kp.length < keep.length := by
          rw [← hkp]
          simp only [List.length_append, List.length_cons]
          omega
        have hdrop : keep.drop kp.length = k0 :: kt' := by
          rw [← hkp, List.drop_left]
        by_cases hp : pat ≠ [] ∧ pat.isPrefixOf (c :: cs) = true
        · exfalso
          have hpat : pat <+: c :: cs := List.isPrefixOf_iff_prefix.mp hp.2
          rcases List.prefix_or_prefix_of_prefix hpat hpre with hc | hc
          · exact (h1 kp.length hplt).1 (hdrop ▸ hc)
          · exact (h1 kp.length hplt).2 (hdrop ▸ hc)
        · simp only [replaceGo, if_neg hp]
          obtain ⟨hck, hkt'⟩ := List.cons_prefix_cons.mp hpre
          have hsuf' : kt' <:+ keep := ⟨kp ++ [k0], by simpa using hkp⟩
          subst hck
          exact List.cons_prefix_cons.mpr ⟨rfl, ih cs kt' hsuf' hkt'⟩

/-- A `keep` string the pattern cannot overlap (no suffix of either is
prefix-related to the other) survives the substitution: if it occurs in the
subject it occurs in the output. -/
theorem replaceGo_infix_preserved (pat rep keep : List Char)
    (h1 : ∀ p, p < keep.length → ¬ pat <+: keep.drop p ∧ ¬ keep.drop p <+: pat)
    (h2 : ∀ k, k < pat.length → ¬ keep <+: pat.drop k ∧ ¬ pat.drop k <+: keep) :
    ∀ f l, keep <:+: l → keep <:+: (replaceGo pat rep f l).2 := by
  intro f
  induction f with
  | zero => intro l h; exact h
  | succ f ih =>
    intro l hinf
    cases l with
    | nil => exact hinf
    | cons c cs =>
      by_cases hp : pat ≠ [] ∧ pat.isPrefixOf (c :: cs) = true
      · simp only [replaceGo, if_pos hp]
        have hpat : pat <+: c :: cs := List.isPrefixOf_iff_prefix.mp hp.2
        obtain ⟨a, b, hab⟩ := hinf
        by_cases hlen : pat.length ≤ a.length
        · have hdrop : keep <:+: (c :: cs).drop pat.length := by
            rw [← hab, List.append_assoc, List.drop_append_of_le_length hlen]
            exact List.infix_append' (a.drop pat.length) keep b
          exact (ih _ hdrop).trans (List.suffix_append rep _).isInfix
        · exfalso
          push_neg at hlen
          obtain ⟨t, ht⟩ := hpat
          have hd1 : pat.drop a.length <+: (c :: cs).drop a.length := by
            rw [← ht, List.drop_append_of_le_length (Nat.le_of_lt hlen)]
            exact ⟨t, rfl⟩
          have hd3 : keep <+: (c :: cs).drop a.length := by
            rw [← hab, List.append_assoc, List.drop_left]
            exact List.prefix_append keep b
          rcases List.prefix_or_prefix_of_prefix hd1 hd3 with hc | hc
          · exact (h2 a.length hlen).2 hc
          · exact (h2 a.length hlen).1 hc
      · rcases List.infix_cons_iff.mp hinf with hpre | hinf'
        · exact (replaceGo_prefix_preserved pat rep keep h1 (f + 1) (c :: cs) keep
            List.suffix_rfl hpre).isInfix
        · simp only [replaceGo, if_neg hp]
          exact (ih cs hinf').trans (List.suffix_cons c _).isInfix

theorem replaceGo_cons_pos (pat rep : List Char) (hne : pat ≠ []) (l : List Char)
    (hpfx : pat.isPrefixOf l = true) (f : Nat) :
    replaceGo pat rep (f + 1) l =
      (true, rep ++ (replaceGo pat rep f (l.drop pat.length)).2) := by
  cases l with
  | nil =>
    exfalso
    have := List.isPrefixOf_iff_prefix.mp hpfx
    exact hne (List.prefix_nil.mp this)
  | cons c cs =>
    have hp : pat ≠ [] ∧ pat.isPrefixOf (c :: cs) = true := ⟨hne, hpfx⟩
    simp only [replaceGo, if_pos hp]

/-- The substitution rewrites the leftmost occurrence in place and continues
on the remainder: on a subject `a ++ pat ++ b` whose first occurrence of
`pat` is the exhibited one, the output is `a ++ rep ++` the substitution of
`b`. -/
theorem replaceGo_first (pat rep : List Char) (hne : pat ≠ []) :
    ∀ (a b : List Char) (f : Nat), (a ++ pat ++ b).length ≤ f →
      (∀ j, j < a.length → ¬ pat <+: (a ++ pat ++ b).drop j) →
      replaceGo pat rep f (a ++ pat ++ b) =
        (true, a ++ rep ++ (replaceGo pat rep b.length b).2) := by
  intro a
  induction a with
  | nil =>
    intro b f hf _
    have hlp : 1 ≤ pat.length := List.length_pos.mpr hne
    cases f with
    | zero =>
      exfalso
      simp only [List.nil_append, List.length_append] at hf
      omega
    | succ f =>
      simp only [List.nil_append] at hf ⊢
      rw [replaceGo_cons_pos pat rep hne _
        (List.isPrefixOf_iff_prefix.mpr (List.prefix_append pat b)) f]
      rw [List.drop_left]
      have hbf : b.length ≤ f := by
        simp only [List.length_append] at hf
        omega
      rw [replaceGo_fuel_congr pat rep f b.length b hbf (Nat.le_refl _)]
  | cons c a' ih =>
    intro b f hf hj
    cases f with
    | zero =>
      exfalso
      simp only [List.cons_append, List.length_cons] at hf
      omega
    | succ f =>
      simp only [List.cons_append] at hf hj ⊢
      have hcond : ¬ (pat ≠ [] ∧ pat.isPrefixOf (c :: (a' ++ pat ++ b)) = true) := by
        rintro ⟨-, hpp⟩
        have h0 := hj 0 (by simp)
        rw [List.drop_zero] at h0
        exact h0 (List.isPrefixOf_iff_prefix.mp hpp)
      simp only [replaceGo, if_neg hcond]
      have hf' : (a' ++ pat ++ b).length ≤ f := by
        simp only [List.length_cons] at hf
        omega
      have hj' : ∀ j, j < a'.length → ¬ pat <+: (a' ++ pat ++ b).drop j := by
        intro j hjlt
        have hstep := hj (j + 1) (by simp only [List.length_cons]; omega)
        rwa [List.drop_succ_cons] at hstep
      rw [ih b f hf' hj']

theorem originEnabled_contains (content : String) (h : originEnabled content = true) :
    containsSub content ORIGIN_LINE = true := by
  rw [containsSub_iff]
  obtain ⟨l, hl, hpre⟩ := List.any_eq_true.mp h
  have h1 : ORIGIN_LINE.data <+: l.dropWhile (fun c => isPySpace c) :=
    List.isPrefixOf_iff_prefix.mp hpre
  have h2 : l.dropWhile (fun c => isPySpace c) <:+ l := List.dropWhile_suffix _
  have h4 : l <:+: content.data := by
    have h5 := infix_joinNl_of_mem hl
    rwa [joinNl_splitNl] at h5
  exact (h1.isInfix.trans h2.isInfix).trans h4

theorem origin_step_contains (content : String)
    (h : originEnabled content = true ∨ hasCommentedOrigin content = true) :
    containsSub (origin_step content) ORIGIN_LINE = true := by
  by_cases he : originEnabled content = true
  · unfold origin_step
    rw [if_pos he]
    exact originEnabled_contains content he
  · have hc : hasCommentedOrigin content = true := h.resolve_left he
    unfold origin_step
    rw [if_neg he, containsSub_iff]
    unfold hasCommentedOrigin uncommentScan at hc
    exact uncommentGo_found_infix _ _ hc

theorem reboot_step_contains_false_of_true (c : String)
    (h : containsSub c REBOOT_TRUE = true) :
    containsSub (reboot_step c) REBOOT_FALSE = true := by
  have hkeytrue : REBOOT_KEY.data <:+: REBOOT_TRUE.data :=
    (List.isPrefixOf_iff_prefix.mp (by rfl)).isInfix
  have hkey : containsSub c REBOOT_KEY = true := by
    rw [containsSub_iff] at h ⊢
    exact hkeytrue.trans h
  unfold reboot_step
  rw [if_neg (not_not_intro hkey), containsSub_iff]
  have hfound : (replaceScan REBOOT_TRUE.data REBOOT_FALSE.data c.data).1 = true := by
    unfold replaceScan
    exact replaceGo_found_of_infix _ _ (by decide) _ _ (Nat.le_refl _)
      ((containsSub_iff c REBOOT_TRUE).mp h)
  unfold replaceScan at hfound ⊢
  exact replaceGo_found_infix _ _ _ _ hfound

/-- The origin directive survives the Automatic-Reboot step: the exact
`"true"` directive cannot overlap any occurrence of the origin directive (no
suffix of either is prefix-related to the other, a finite check), so the
substitution leaves every origin occurrence intact; the append branch only
adds a suffix. -/
theorem reboot_step_preserves_origin (c1 : String)
    (h : containsSub c1 ORIGIN_LINE = true) :
    containsSub (reboot_step c1) ORIGIN_LINE = true := by
  by_cases hk : containsSub c1 REBOOT_KEY = true
  · unfold reboot_step
    rw [if_neg (not_not_intro hk), containsSub_iff]
    rw [containsSub_iff] at h
    unfold replaceScan
    exact replaceGo_infix_preserved REBOOT_TRUE.data REBOOT_FALSE.data ORIGIN_LINE.data
      (by decide) (by decide) _ _ h
  · unfold reboot_step
    rw [if_pos hk, containsSub_iff, string_data_append, string_data_append,
      string_data_append]
    rw [containsSub_iff] at h
    exact h.trans ((List.prefix_append c1.data "\n".data).trans
      ((List.prefix_append _ REBOOT_FALSE.data).trans
        (List.prefix_append _ "\n".data))).isInfix

/-- The Automatic-Reboot guarantee: the result contains the `"false"`
directive whenever the content reaching the step lacks the Automatic-Reboot
substring (the directive is appended) or contains the exact `"true"` or
`"false"` directive (the `"true"` directive is rewritten, an existing
`"false"` directive is preserved because an absent `"true"` pattern leaves
the content unchanged). -/
theorem reboot_step_false_guarantee (c1 : String)
    (h : containsSub c1 REBOOT_KEY = true →
      containsSub c1 REBOOT_TRUE = true ∨ containsSub c1 REBOOT_FALSE = true) :
    containsSub (reboot_step c1) REBOOT_FALSE = true := by
  by_cases hk : containsSub c1 REBOOT_KEY = true
  · rcases h hk with htrue | hfalse
    · exact reboot_step_contains_false_of_true c1 htrue
    · by_cases ht : containsSub c1 REBOOT_TRUE = true
      · exact reboot_step_contains_false_of_true c1 ht
      · unfold reboot_step
        rw [if_neg (not_not_intro hk)]
        have hno : ¬ REBOOT_TRUE.data <:+: c1.data :=
          fun hI => ht ((containsSub_iff _ _).mpr hI)
        unfold replaceScan
        rw [replaceGo_no_occurrence _ _ _ _ hno]
        exact hfalse
  · unfold reboot_step
    rw [if_pos hk, containsSub_iff, string_data_append, string_data_append,
      string_data_append]
    exact List.infix_append _ _ _

set_option maxRecDepth 8192 in
/-- C7 (amended): `setup_security_updates` unconditionally overwrites
`20auto-upgrades` with the four fixed periodic settings. For
`50unattended-upgrades`: a missing file is replaced by the full fixed
configuration, which contains the uncommented Debian-Security origin and
`Automatic-Reboot "false"`; whenever the existing file contains the origin
directive uncommented or `//`-commented, the result still contains it
uncommented; the result contains `Automatic-Reboot "false"` whenever the
content reaching the Automatic-Reboot step lacks the
`Unattended-Upgrade::Automatic-Reboot` substring (the directive is appended —
the exact append equation is given) or contains the exact `"true"` or
`"false"` directive; and the rewrite itself replaces the leftmost exact
`"true"` directive in place by the `"false"` directive, continuing on the
remainder. Without these provisos the claimed guarantee fails, as the
counterexamples show. -/
theorem security_updates_characterization :
    (∀ ex, setup_20auto ex = AUTO_UPGRADES_CONTENT) ∧
    containsSub AUTO_UPGRADES_CONTENT "APT::Periodic::Update-Package-Lists \"1\";" = true ∧
    containsSub AUTO_UPGRADES_CONTENT "APT::Periodic::Unattended-Upgrade \"1\";" = true ∧
    containsSub AUTO_UPGRADES_CONTENT "APT::Periodic::AutocleanInterval \"7\";" = true ∧
    containsSub AUTO_UPGRADES_CONTENT
      "APT::Periodic::Download-Upgradeable-Packages \"1\";" = true ∧
    (setup_50unattended none = FULL_UNATTENDED_CONTENT ∧
      containsSub FULL_UNATTENDED_CONTENT ORIGIN_LINE = true ∧
      containsSub FULL_UNATTENDED_CONTENT REBOOT_FALSE = true) ∧
    (∀ c, originEnabled c = true ∨ hasCommentedOrigin c = true →
      containsSub (setup_50unattended (some c)) ORIGIN_LINE = true) ∧
    (∀ c, (containsSub (origin_step c) REBOOT_KEY = true →
        containsSub (origin_step c) REBOOT_TRUE = true ∨
        containsSub (origin_step c) REBOOT_FALSE = true) →
      containsSub (setup_50unattended (some c)) REBOOT_FALSE = true) ∧
    (∀ c, ¬ containsSub (origin_step c) REBOOT_KEY = true →
      setup_50unattended (some c) = origin_step c ++ "\n" ++ REBOOT_FALSE ++ "\n") ∧
    (∀ a b : List Char,
      (∀ j, j < a.length → ¬ REBOOT_TRUE.data <+: (a ++ REBOOT_TRUE.data ++ b).drop j) →
      reboot_step (String.mk (a ++ REBOOT_TRUE.data ++ b)) =
        String.mk (a ++ REBOOT_FALSE.data ++
          (replaceScan REBOOT_TRUE.data REBOOT_FALSE.data b).2)) := by
  refine ⟨fun _ => rfl, rfl, rfl, rfl, rfl, ⟨rfl, rfl, rfl⟩, ?_, ?_, ?_, ?_⟩
  · intro c horig
    show containsSub (reboot_step (origin_step c)) ORIGIN_LINE = true
    exact reboot_step_preserves_origin (origin_step c) (origin_step_contains c horig)
  · intro c hreb
    show containsSub (reboot_step (origin_step c)) REBOOT_FALSE = true
    exact reboot_step_false_guarantee (origin_step c) hreb
  · intro c hnk
    show reboot_step (origin_step c) = origin_step c ++ "\n" ++ REBOOT_FALSE ++ "\n"
    unfold reboot_step
    rw [if_pos hnk]
  · intro a b hj
    have hkey : containsSub (String.mk (a ++ REBOOT_TRUE.data ++ b)) REBOOT_KEY = true := by
      rw [containsSub_iff]
      exact ((List.isPrefixOf_iff_prefix.mp (by rfl :
        REBOOT_KEY.data.isPrefixOf REBOOT_TRUE.data = true)).isInfix).trans
        (List.infix_append a REBOOT_TRUE.data b)
    unfold reboot_step
    rw [if_neg (not_not_intro hkey)]
    have hfirst := replaceGo_first REBOOT_TRUE.data REBOOT_FALSE.data (by decide)
      a b (a ++ REBOOT_TRUE.data ++ b).length (Nat.le_refl _) hj
    show String.mk (replaceScan REBOOT_TRUE.data REBOOT_FALSE.data
      (a ++ REBOOT_TRUE.data ++ b)).2 = _
    unfold replaceScan
    rw [hfirst]

set_option maxRecDepth 8192 in
/-- C7 counterexample: an existing empty `50unattended-upgrades` yields a
result containing no Debian-Security origin directive at all; and an existing
file whose only Automatic-Reboot text is the differently-formatted
`Automatic-Reboot-Time` setting (so the `Unattended-Upgrade::Automatic-Reboot`
substring is present) ends with no `Automatic-Reboot "false"` directive —
refuting the claim's unconditional guarantee for both halves. -/
theorem security_updates_claim_counterexample :
    containsSub (setup_50unattended (some "")) ORIGIN_LINE = false ∧
    containsSub c7_reboot_input REBOOT_KEY = true ∧
    containsSub (setup_50unattended (some c7_reboot_input)) REBOOT_FALSE = false :=
  ⟨rfl, rfl, rfl⟩

set_option maxRecDepth 8192 in
/-- Concrete instance of C7 (amended): on a stock-like file carrying both the
`//`-commented origin and the stock `//`-commented Automatic-Reboot line, the
origin is uncommented and the `"false"` directive is present afterwards; the
append equation holds on the reboot-free stock file; and the in-place rewrite
equation holds at a concrete leftmost `"true"` directive. -/
theorem security_updates_characterization_witness :
    setup_20auto (some "anything") = AUTO_UPGRADES_CONTENT ∧
    containsSub (setup_50unattended (some stock50_full)) ORIGIN_LINE = true ∧
    containsSub (setup_50unattended (some stock50_full)) REBOOT_FALSE = true ∧
    setup_50unattended (some stock50) = origin_step stock50 ++ "\n" ++ REBOOT_FALSE ++ "\n" ∧
    containsSub
      (setup_50unattended (some (ORIGIN_LINE ++ "\n" ++ REBOOT_TRUE ++ "\n")))
      REBOOT_FALSE = true ∧
    reboot_step (String.mk ("A\n".data ++ REBOOT_TRUE.data ++ "\nB".data)) =
      String.mk ("A\n".data ++ REBOOT_FALSE.data ++
        (replaceScan REBOOT_TRUE.data REBOOT_FALSE.data "\nB".data).2) := by
  obtain ⟨h1, _, _, _, _, _, h7, h8, h9, h10⟩ := security_updates_characterization
  exact ⟨h1 (some "anything"),
    h7 stock50_full (Or.inr (by rfl)),
    h8 stock50_full (fun _ => Or.inr (by rfl)),
    h9 stock50 (by decide),
    h8 (ORIGIN_LINE ++ "\n" ++ REBOOT_TRUE ++ "\n") (fun _ => Or.inl (by rfl)),
    h10 "A\n".data "\nB".data (by decide)⟩

end DebPreseed
